import Mathlib

/-!
# Verification of the Stackby MCP server against its specification

Shallow embedding of the repository's source (TypeScript) in Lean 4.

The repository contains two parallel variants of the API client and of the
HTTP entry point:
* the MCP-API client (`stackby-api.ts`, routes under `/api/v1/mcp`) paired
  with `mcp-server.ts`, and
* the devapi client (`src/stackby-api.ts`, routes `workspacelist`,
  `stacklist`, ...) ;
* two revisions of `server-http.ts` (one with an `isNotificationOnly`
  202 fast-path and debug body logging, one without).

Functions are embedded per variant, suffixed `_mcp` / `_dev` for the client
and `_v1` (debug-logging revision) / `_v2` (`src/server-http.ts`) for the
HTTP entry point.  Remote I/O (`fetch`) is represented by explicit oracle
arguments giving the remote response, together with a trace of the network
calls attempted, so that "no network call is attempted" is a statement
about the trace.
-/

namespace StackbyMCP

/-- JSON values as produced by `JSON.parse` (no `undefined`; object members
as an association list in document order). Numbers are modelled as integers;
no claim depends on numeric semantics. -/
inductive Json where
  | null : Json
  | bool (b : Bool) : Json
  | num (n : Int) : Json
  | str (s : String) : Json
  | arr (elems : List Json) : Json
  | obj (members : List (String × Json)) : Json

/-- JS `String.prototype.trim` (char-list implementation: Lean's
`String.trim` is defined through `Substring` well-founded auxiliaries and
does not reduce inside the kernel, which concrete witnesses require). -/
def jsTrim (s : String) : String :=
  ⟨((s.data.dropWhile Char.isWhitespace).reverse.dropWhile Char.isWhitespace).reverse⟩

/-- JS `String.prototype.startsWith` (char-list implementation). -/
def strStartsWith (s pre : String) : Bool :=
  pre.data.isPrefixOf s.data

/-- JS `String.prototype.slice(n)` / Lean `String.drop` (char-list
implementation). -/
def strDrop (s : String) (n : Nat) : String :=
  ⟨s.data.drop n⟩

/-- Everything before the first `?` — `raw.split("?")[0]` (char-list
implementation). -/
def beforeQuery (raw : String) : String :=
  ⟨raw.data.takeWhile (fun c => c ≠ '?')⟩

/-- JS `String.prototype.toLowerCase` (char-list implementation; ASCII
letters only, which is all the path comparison exercises). -/
def lowerAscii (s : String) : String :=
  ⟨s.data.map Char.toLower⟩

/-- JS `String.prototype.endsWith("/")` (char-list implementation). -/
def endsWithSlash (s : String) : Bool :=
  s.data.getLast? = some '/'

/-- Drop the final character — `p.slice(0, -1)` (char-list implementation). -/
def strDropLast (s : String) : String :=
  ⟨s.data.dropLast⟩

/-- Member lookup on a JSON value: `some v` exactly when the value is an
object carrying the key (the JS test `key in body && body[key] !== undefined`;
a member decoded from JSON is never `undefined`). Arrays and primitives have
no members. -/
def Json.lookupMember : Json → String → Option Json
  | .obj members, key => members.lookup key
  | _, _ => none

/-- From `stackby-api.ts` (MCP-API client): `normalizeResponse(body)` —
if `body` is a non-null object with a defined `data` member, yield that
member, otherwise yield `body` itself.  We model the `.data` projection of
the TS return value `{ data: T }`. -/
def normalizeResponse (body : Json) : Json :=
  match body.lookupMember "data" with
  | some v => v
  | none => body

/-- `RequestContext` from `request-context.ts`: per-request credentials for
hosted (HTTP) mode. -/
structure RequestContext where
  apiKey : String
  apiUrl : Option String
deriving Repr, DecidableEq

/-- `getApiKeyFromContext()`: `ctx?.apiKey?.trim() || undefined` — the
trimmed context key, or `none` when no context is set or the trimmed key is
empty. -/
def getApiKeyFromContext (ctx : Option RequestContext) : Option String :=
  match ctx with
  | none => none
  | some c => if jsTrim c.apiKey = "" then none else some (jsTrim c.apiKey)

/-- `getEffectiveApiKey()` from `stackby-api.ts` (MCP-API client): the
context key when present, else the trimmed process-wide `STACKBY_API_KEY`. -/
def getEffectiveApiKey (ctx : Option RequestContext) (envApiKey : String) : String :=
  match getApiKeyFromContext ctx with
  | some fromContext => fromContext
  | none => jsTrim envApiKey

/-- `hasApiKey()`: whether an effective key is available. -/
def hasApiKey (ctx : Option RequestContext) (envApiKey : String) : Bool :=
  getEffectiveApiKey ctx envApiKey ≠ ""

/-- `authHeaders()` from `stackby-api.ts` (MCP-API client): throws when no
effective key is available, else builds the header list (`Content-Type`,
`x-api-key`, plus a bearer `Authorization` for `pat_`-prefixed keys). -/
def authHeaders (ctx : Option RequestContext) (envApiKey : String) :
    Except String (List (String × String)) :=
  let key := getEffectiveApiKey ctx envApiKey
  if key = "" then
    .error "STACKBY_API_KEY is not set. Set it in your MCP config (e.g. Cursor mcp.json env) or send header X-Stackby-API-Key (hosted)."
  else
    .ok ([("Content-Type", "application/json"), ("x-api-key", key)] ++
      (if strStartsWith key "pat_" then [("Authorization", "Bearer " ++ key)] else []))

/-- `request()` from `stackby-api.ts`: evaluates `authHeaders()` before
calling `fetch`, so a missing key throws with no fetch attempted.  `remote`
is the oracle for the fetch outcome (`.error` = non-ok status or transport
failure, `.ok` = decoded body).  The second component records whether the
fetch was attempted. -/
def request (ctx : Option RequestContext) (envApiKey : String)
    (remote : Except String Json) : Except String Json × Bool :=
  match authHeaders ctx envApiKey with
  | .error e => (.error e, false)
  | .ok _ => ((remote.map normalizeResponse), true)

/-! ## Row listing (`getRowList`) — query-parameter clamping -/

/-- Options of `getRowList` (MCP-API client; the devapi variant has only
`maxRecords`, `offset`, `rowIds`).  JS numbers are modelled as integers;
the claims concern only ordering against 1 and 100. -/
structure GetRowListOptions where
  maxRecords : Option Int := none
  pageSize : Option Int := none
  offset : Option Int := none
deriving Repr, DecidableEq

/-- The `maxrecord`/`offset` query parameters computed by `getRowList`. -/
structure RowListQuery where
  maxrecord : Int
  offset : Int
deriving Repr, DecidableEq

/-- `getRowList` (MCP-API client), the query-parameter computation:
`maxRecords = Math.min(Math.max(1, opts.maxRecords ?? opts.pageSize ?? 100), 100)`,
`offset = Math.max(0, opts.offset ?? 0)`. -/
def getRowListQuery_mcp (opts : GetRowListOptions) : RowListQuery :=
  { maxrecord := min (max 1 ((opts.maxRecords.getD (opts.pageSize.getD 100)))) 100
    offset := max 0 (opts.offset.getD 0) }

/-- `getRowList` (devapi client, `src/stackby-api.ts`), the query-parameter
computation: `maxRecords = Math.min(Math.max(1, opts.maxRecords ?? 100), 100)`,
`offset = Math.max(0, opts.offset ?? 0)`. -/
def getRowListQuery_dev (opts : GetRowListOptions) : RowListQuery :=
  { maxrecord := min (max 1 (opts.maxRecords.getD 100)) 100
    offset := max 0 (opts.offset.getD 0) }

/-! ## Batch write operations (`updateRows`, `deleteRows`) and their
tool-level input schemas -/

/-- One entry of the `records` argument of `update_records`:
`{ id, fields }`. -/
structure RecordUpdate where
  id : String
  fields : List (String × Json)

/-- The zod input schema of the `update_records` tool (`mcp-server.ts`):
`records: z.array(...).min(1).max(10)`.  The MCP SDK validates the input
against this schema before the tool handler runs, so a failing batch is
rejected before any network call. -/
def updateRecordsSchemaOk (records : List RecordUpdate) : Bool :=
  1 ≤ records.length && records.length ≤ 10

/-- The zod input schema of the `delete_records` tool (`mcp-server.ts`):
`recordIds: z.array(z.string()).min(1).max(10)`. -/
def deleteRecordsSchemaOk (recordIds : List String) : Bool :=
  1 ≤ recordIds.length && recordIds.length ≤ 10

/-- Body of the row-update network call:
`{ records: records.map(r => ({ id: r.id, field: r.fields })) }`. -/
structure UpdateRowsBody where
  records : List (String × List (String × Json))

/-- `updateRows` (both client variants have the identical guard): an empty
batch returns `[]` with no network call (`.ok none`), a batch over 10
throws before any network call (`.error`), otherwise the update request is
issued (`.ok (some body)`). -/
def updateRows (records : List RecordUpdate) :
    Except String (Option UpdateRowsBody) :=
  if records.length = 0 then .ok none
  else if records.length > 10 then
    .error "update_records supports at most 10 records per request."
  else .ok (some { records := records.map fun r => (r.id, r.fields) })

/-- `deleteRows` (both client variants): empty batch returns with no call,
over 10 throws before any call, otherwise the DELETE request is issued with
query `rowIds=id1&rowIds=id2&...` (we record the id list). -/
def deleteRows (recordIds : List String) :
    Except String (Option (List String)) :=
  if recordIds.length = 0 then .ok none
  else if recordIds.length > 10 then
    .error "delete_records supports at most 10 records per request."
  else .ok (some recordIds)

/-! ## Aggregate stack listing (`getAllStacks`) -/

/-- `Workspace` entity: `{ id, name }`. -/
structure Workspace where
  id : String
  name : String
deriving Repr, DecidableEq

/-- `Stack` entity (the fields materialized by the clients). -/
structure Stack where
  stackId : String
  workspaceId : String
  stackName : String
  color : Option String := none
  icon : Option String := none
deriving Repr, DecidableEq

/-- A stack augmented with the `workspaceName` attached by `getAllStacks`
(`{ ...s, workspaceName }`). -/
structure StackWithWorkspace extends Stack where
  workspaceName : String
deriving Repr, DecidableEq

/-- Raw per-stack shape of the MCP-API `POST /stacks` response
(`stackId` may be missing: `s.stackId ?? ""`). -/
structure RawStack where
  stackId : Option String
  stackName : String
  workspaceId : String
  color : Option String := none
  icon : Option String := none
deriving Repr, DecidableEq

/-- `getStacks` (MCP-API client): maps the raw response list, defaulting a
missing `stackId` to `""`, and reports `workspaceName ?? ""` for the name
passed by the caller. -/
def getStacks_mcp (raw : List RawStack) (workspaceName : Option String) :
    List Stack × String :=
  (raw.map fun s =>
    { stackId := s.stackId.getD ""
      stackName := s.stackName
      workspaceId := s.workspaceId
      color := s.color
      icon := s.icon },
   workspaceName.getD "")

/-- `getAllStacks` (MCP-API client): fetch the workspaces, then for each
workspace in order try `getStacks(ws.id, ws.name)` and push its stacks
tagged with the workspace name, skipping the workspace when the fetch
throws.  `stacksRemote ws` is the oracle for the per-workspace fetch.
A failure of `getWorkspaces` itself propagates. -/
def getAllStacks_mcp (workspacesRemote : Except String (List Workspace))
    (stacksRemote : Workspace → Except String (List RawStack)) :
    Except String (List StackWithWorkspace) :=
  match workspacesRemote with
  | .error e => .error e
  | .ok workspaces =>
    .ok (workspaces.foldl (fun all ws =>
      match stacksRemote ws with
      | .ok raw =>
        let (list, workspaceName) := getStacks_mcp raw (some ws.name)
        all ++ list.map fun s => { toStack := s, workspaceName := workspaceName }
      | .error _ => all) [])

/-- `getAllStacks` (devapi client, `src/stackby-api.ts`): same skip-on-error
fan-out; here `getStacks(ws.id)` returns `{ list, workspaceName }` directly
(the oracle), and each stack is tagged with that returned name. -/
def getAllStacks_dev (workspacesRemote : Except String (List Workspace))
    (stacksRemote : Workspace → Except String (List Stack × String)) :
    Except String (List StackWithWorkspace) :=
  match workspacesRemote with
  | .error e => .error e
  | .ok workspaces =>
    .ok (workspaces.foldl (fun all ws =>
      match stacksRemote ws with
      | .ok (list, workspaceName) =>
        all ++ list.map fun s => { toStack := s, workspaceName := workspaceName }
      | .error _ => all) [])

/-! ## Search operation (`searchRecords`) -/

/-- `TableField` entity: a column of a table. -/
structure TableField where
  id : String
  name : String
  fieldType : String
deriving Repr, DecidableEq

/-- `SearchRecordsResult`: `{ rowIds, rowname, fields }`. -/
structure SearchRecordsResult where
  rowIds : List String
  rowname : List String
  fields : List (List (String × Json))

/-- The loosely-typed shape the search endpoint answers with: each of the
three members may be missing (`f.rowIds ?? []` etc. in the source). -/
structure RawSearchResult where
  rowIds : Option (List String)
  rowname : Option (List String)
  fields : Option (List (List (String × Json)))

/-- The `data` part of the search response before decoding: either an array
of results or a single value (an object, or `null`/a primitive, modelled by
`single none`).  `Array.isArray` distinguishes the two. -/
inductive SearchData where
  | arrData (results : List RawSearchResult)
  | single (result : Option RawSearchResult)

/-- Network calls attempted by `searchRecords` (the column-list fetch and
the search request itself, with the body fields relevant to the claims). -/
inductive SearchCall where
  | columnsCall (stackId tableId : String)
  | searchCall (stackId tableId : String) (columnId : Option String)
      (search : String) (maxRecord : Int)
deriving Repr, DecidableEq

/-- `searchRecords` (MCP-API client): resolve the column (explicit trimmed
`opts.columnId`, else first column of the fetched list, else `""`), then
always POST the search with `columnId: columnId || undefined`; decode
`data` via `Array.isArray(data) ? data[0] : data` and return the empty
result when the first element is missing or lacks `rowIds`. Returns the
result together with the trace of network calls attempted. -/
def searchRecords_mcp (stackId tableId searchTerm : String)
    (optColumnId : Option String) (optMaxRecords : Option Int)
    (columnsRemote : Except String (List TableField))
    (searchRemote : Except String SearchData) :
    Except String SearchRecordsResult × List SearchCall :=
  let c0 := (optColumnId.map jsTrim).getD ""
  let resolved : Except String (String × List SearchCall) :=
    if c0 = "" then
      match columnsRemote with
      | .error e => .error e
      | .ok columns =>
        .ok (match columns with
             | [] => ""
             | f :: _ => f.id,
             [.columnsCall stackId tableId])
    else .ok (c0, [])
  match resolved with
  | .error e => (.error e, [.columnsCall stackId tableId])
  | .ok (columnId, trace) =>
    let maxRecord := min (max 1 (optMaxRecords.getD 100)) 99999
    let bodyColumnId := if columnId = "" then none else some columnId
    let call := SearchCall.searchCall stackId tableId bodyColumnId searchTerm maxRecord
    match searchRemote with
    | .error e => (.error e, trace ++ [call])
    | .ok data =>
      let first : Option RawSearchResult :=
        match data with
        | .arrData results => results.head?
        | .single result => result
      match first with
      | none => (.ok ⟨[], [], []⟩, trace ++ [call])
      | some f =>
        match f.rowIds with
        | none => (.ok ⟨[], [], []⟩, trace ++ [call])
        | some ids =>
          (.ok ⟨ids, f.rowname.getD [], f.fields.getD []⟩, trace ++ [call])

/-- `searchRecords` (devapi client, `src/stackby-api.ts`): same column
resolution, but when the resolved column id is still empty it returns the
empty result before the search request (`if (!columnId) return ...`); the
search body carries the column id, and only an array response with a first
element is accepted. -/
def searchRecords_dev (stackId tableId searchTerm : String)
    (optColumnId : Option String) (optMaxRecords : Option Int)
    (columnsRemote : Except String (List TableField))
    (searchRemote : Except String SearchData) :
    Except String SearchRecordsResult × List SearchCall :=
  let c0 := (optColumnId.map jsTrim).getD ""
  let resolved : Except String (String × List SearchCall) :=
    if c0 = "" then
      match columnsRemote with
      | .error e => .error e
      | .ok columns =>
        .ok (match columns with
             | [] => ""
             | f :: _ => f.id,
             [.columnsCall stackId tableId])
    else .ok (c0, [])
  match resolved with
  | .error e => (.error e, [.columnsCall stackId tableId])
  | .ok (columnId, trace) =>
    if columnId = "" then (.ok ⟨[], [], []⟩, trace)
    else
      let maxRecord := min (max 1 (optMaxRecords.getD 100)) 99999
      let call := SearchCall.searchCall stackId tableId (some columnId) searchTerm maxRecord
      match searchRemote with
      | .error e => (.error e, trace ++ [call])
      | .ok data =>
        let first : Option RawSearchResult :=
          match data with
          | .arrData (x :: _) => some x
          | _ => none
        match first with
        | none => (.ok ⟨[], [], []⟩, trace ++ [call])
        | some f =>
          match f.rowIds with
          | none => (.ok ⟨[], [], []⟩, trace ++ [call])
          | some ids =>
            (.ok ⟨ids, f.rowname.getD [], f.fields.getD []⟩, trace ++ [call])

/-! ## Tool registry (`mcp-server.ts`): input validation and response
formatting for the tools cited by the claims -/

/-- Escaping of `"` and `\` as performed by `JSON.stringify` on strings
(control-character escapes are not exercised by any claim). -/
def escapeJsonString (s : String) : String :=
  s.foldl (fun acc c =>
    acc ++ (if c = '"' then "\\\"" else if c = '\\' then "\\\\" else String.singleton c)) ""

mutual

/-- `JSON.stringify` on a decoded JSON value. -/
def stringifyJson : Json → String
  | .null => "null"
  | .bool b => if b then "true" else "false"
  | .num n => toString n
  | .str s => "\"" ++ escapeJsonString s ++ "\""
  | .arr elems => "[" ++ stringifyElems elems ++ "]"
  | .obj members => "\x7b" ++ stringifyMembers members ++ "\x7d"

/-- Comma-separated serialization of array elements. -/
def stringifyElems : List Json → String
  | [] => ""
  | [x] => stringifyJson x
  | x :: xs => stringifyJson x ++ "," ++ stringifyElems xs

/-- Comma-separated serialization of object members. -/
def stringifyMembers : List (String × Json) → String
  | [] => ""
  | [(k, v)] => "\"" ++ escapeJsonString k ++ "\":" ++ stringifyJson v
  | (k, v) :: xs =>
    "\"" ++ escapeJsonString k ++ "\":" ++ stringifyJson v ++ "," ++ stringifyMembers xs

end

/-- `TableView` entity: a view of a table. -/
structure TableView where
  id : String
  name : String
  tableId : String
deriving Repr, DecidableEq

/-- `DescribeTableResult`: `{ id, name, fields, views }`. -/
structure DescribeTableResult where
  id : String
  name : String
  fields : List TableField
  views : List TableView

/-- `TableRecord` entity: `{ id, field }` with an opaque field map. -/
structure TableRecord where
  id : String
  field : List (String × Json)

/-- The text/error envelope every tool returns
(`{ content: [{ type: "text", text }], isError? }`). -/
structure ToolResponse where
  text : String
  isError : Bool
deriving Repr, DecidableEq

/-- Success formatting of the `describe_table` tool (`mcp-server.ts`). -/
def formatDescribeTable (schema : DescribeTableResult) : String :=
  let fieldLines := if schema.fields.isEmpty then ["(no fields)"]
    else schema.fields.map fun f =>
      "  - " ++ f.name ++ " (id: " ++ f.id ++ ", type: " ++ f.fieldType ++ ")"
  let viewLines := if schema.views.isEmpty then ["(no views)"]
    else schema.views.map fun v => "  - " ++ v.name ++ " (id: " ++ v.id ++ ")"
  String.intercalate "\n"
    (["Table: " ++ schema.name ++ " (id: " ++ schema.id ++ ")", "", "Fields:"] ++
      fieldLines ++ ["", "Views:"] ++ viewLines)

/-- The `describe_table` tool handler (`mcp-server.ts`): trim both ids and
treat empty-after-trim as missing (error, nothing attempted), then require
a key (soft guidance message, nothing attempted), then run `describeTable`
(`describeRemote` is the outcome of that call chain).  The Boolean reports
whether any remote call was attempted. -/
def describeTableTool (stackId tableId : Option String)
    (ctx : Option RequestContext) (envApiKey : String)
    (describeRemote : Except String DescribeTableResult) : ToolResponse × Bool :=
  let sId := (stackId.map jsTrim).getD ""
  let tId := (tableId.map jsTrim).getD ""
  if sId = "" ∨ tId = "" then
    ({ text := "stackId and tableId are required. Use list_stacks and list_tables to get IDs.",
       isError := true }, false)
  else if !hasApiKey ctx envApiKey then
    ({ text := "STACKBY_API_KEY is not set. Add it to your MCP config.", isError := false }, false)
  else
    match describeRemote with
    | .ok schema => ({ text := formatDescribeTable schema, isError := false }, true)
    | .error message =>
      ({ text := "Failed to describe table: " ++ message ++ ". Check stackId, tableId, and API access.",
         isError := true }, true)

/-- The `list_records` tool handler (`mcp-server.ts`): same trim-validation
of both ids, then key check, then `getRowList(sId, tId, { maxRecords:
maxRecords ?? 100 })` (outcome `rowsRemote`), formatting one line per
record.  The second component is the row-list query of the attempted
remote call (`none` when no network call is attempted). -/
def listRecordsTool (stackId tableId : Option String) (maxRecords : Option Int)
    (ctx : Option RequestContext) (envApiKey : String)
    (rowsRemote : Except String (List TableRecord)) : ToolResponse × Option RowListQuery :=
  let sId := (stackId.map jsTrim).getD ""
  let tId := (tableId.map jsTrim).getD ""
  if sId = "" ∨ tId = "" then
    ({ text := "stackId and tableId are required. Use list_stacks and list_tables to get IDs.",
       isError := true }, none)
  else if !hasApiKey ctx envApiKey then
    ({ text := "STACKBY_API_KEY is not set. Add it to your MCP config.", isError := false }, none)
  else
    let query := getRowListQuery_mcp { maxRecords := some (maxRecords.getD 100) }
    match rowsRemote with
    | .ok records =>
      let lines := if records.isEmpty then ["No records found."]
        else records.map fun r => "- id: " ++ r.id ++ " | " ++ stringifyJson (.obj r.field)
      ({ text := String.intercalate "\n"
            (["Records in table " ++ tId ++ " (" ++ toString records.length ++ "):", ""] ++ lines),
         isError := false }, some query)
    | .error message =>
      ({ text := "Failed to list records: " ++ message ++ ". Check stackId, tableId, and API access.",
         isError := true }, some query)

/-! ## HTTP entry point (`server-http.ts`, both revisions) -/

/-- An inbound HTTP request.  Header names are lowercased (as Node presents
them); `body` is what `JSON.parse` yields on the full raw body text (`none`
when the raw text is blank or invalid JSON), `rawEmpty` whether the raw
text was empty (it selects the 400 message in the v2 revision). -/
structure HttpReq where
  method : String
  url : String
  headers : List (String × String)
  body : Option Json
  rawEmpty : Bool := false

/-- The request body stream.  A Node `IncomingMessage` yields its data
once: reading an already-consumed stream yields the empty string, which
`readBody` turns into `undefined`. -/
structure BodyStream where
  content : Option Json
  consumed : Bool

/-- `readBody(req)`: drain the stream and JSON-parse the text (blank or
invalid text gives `undefined`).  A second read finds the stream consumed
and yields `undefined`. -/
def readBody (s : BodyStream) : Option Json × BodyStream :=
  if s.consumed then (none, s) else (s.content, { s with consumed := true })

/-- `normalizePath(raw)`: strip the query string, trim, lowercase, and
drop a trailing slash (except for the bare `/`). -/
def normalizePath (raw : String) : String :=
  let p := lowerAscii (jsTrim (beforeQuery raw))
  if endsWithSlash p ∧ p.length > 1 then strDropLast p else p

/-- `getApiKeyFromRequest(req)`: a non-blank `x-stackby-api-key` header
(trimmed), else the remainder of a `Bearer `-prefixed `authorization`
header (trimmed; possibly the empty string, which the caller's falsiness
check treats as missing). -/
def getApiKeyFromRequest (req : HttpReq) : Option String :=
  let bearer : Option String :=
    match req.headers.lookup "authorization" with
    | some auth => if strStartsWith auth "Bearer " then some (jsTrim (strDrop auth 7)) else none
    | none => none
  match req.headers.lookup "x-stackby-api-key" with
  | some header => if jsTrim header = "" then bearer else some (jsTrim header)
  | none => bearer

/-- `getApiUrlFromRequest(req)`: non-blank `x-stackby-api-url` header,
trimmed. -/
def getApiUrlFromRequest (req : HttpReq) : Option String :=
  match req.headers.lookup "x-stackby-api-url" with
  | some header => if jsTrim header = "" then none else some (jsTrim header)
  | none => none

mutual

/-- `isNotificationOnly(body)` (v1 revision of `server-http.ts`): a single
JSON-RPC message with `jsonrpc` and `method` members and no non-null `id`,
or an array all of whose elements satisfy the same (the empty array
included). -/
def isNotificationOnly : Json → Bool
  | .arr elems => elems.isEmpty || allNotificationOnly elems
  | .obj members =>
    (members.lookup "jsonrpc").isSome && (members.lookup "method").isSome &&
      !(match members.lookup "id" with
        | some .null => false
        | some _ => true
        | none => false)
  | _ => false

/-- `obj.every((m) => isNotificationOnly(m))` over an array body. -/
def allNotificationOnly : List Json → Bool
  | [] => true
  | x :: xs => isNotificationOnly x && allNotificationOnly xs

end

/-- `isNotificationOnly` applied to the result of `readBody` (`undefined`
fails the `body == null` guard). -/
def isNotificationOnlyOpt : Option Json → Bool
  | none => false
  | some j => isNotificationOnly j

/-- Externally observable side effects of one request's handling. -/
inductive ServerAction where
  | bodyRead
  | dispatch
deriving Repr, DecidableEq

/-- The response the handler settles on.  `dispatched ctx parsedBody` is
`runWithRequestContext({apiKey, apiUrl}, () => transport.handleRequest(req,
res, parsedBody))`, i.e. the request reaches MCP tool dispatch. -/
inductive HttpOutcome where
  | ok200 (body : String)
  | unauthorized401 (error : String)
  | accepted202
  | badRequest400 (message : String)
  | dispatched (ctx : RequestContext) (parsedBody : Option Json)
  | notFound404

/-- The HTTP request handler (v1 revision of `server-http.ts`, the one with
the `isNotificationOnly` fast-path): after the health check, the debug line
`console.log("req.body", await readBody(req))` consumes the request stream;
then the `/mcp` branch checks the credential, reads the body again for a
POST, answers 202 to notification-only bodies, and otherwise dispatches
under the request context. -/
def handleRequest_v1 (req : HttpReq) : HttpOutcome × List ServerAction :=
  let path := normalizePath req.url
  if path = "/health" ∧ req.method = "GET" then (.ok200 "OK", [])
  else
    let s0 : BodyStream := { content := req.body, consumed := false }
    let (_, s1) := readBody s0
    if path = "/mcp" ∧ (req.method = "POST" ∨ req.method = "GET") then
      let apiKey := (getApiKeyFromRequest req).getD ""
      let apiUrl := getApiUrlFromRequest req
      if apiKey = "" then
        (.unauthorized401 "Missing API key. Send X-Stackby-API-Key or Authorization: Bearer <key>.",
         [.bodyRead])
      else if req.method = "POST" then
        let (parsedBody, _) := readBody s1
        if isNotificationOnlyOpt parsedBody then (.accepted202, [.bodyRead, .bodyRead])
        else (.dispatched ⟨apiKey, apiUrl⟩ parsedBody, [.bodyRead, .bodyRead, .dispatch])
      else (.dispatched ⟨apiKey, apiUrl⟩ none, [.bodyRead, .dispatch])
    else (.notFound404, [.bodyRead])

/-- The HTTP request handler (`src/server-http.ts`, v2 revision): health
check, then on `/mcp` the credential check comes before any body read; an
empty/invalid POST body is answered 400 with a JSON-RPC parse error, and
otherwise the request is dispatched under the request context. -/
def handleRequest_v2 (req : HttpReq) : HttpOutcome × List ServerAction :=
  let path := normalizePath req.url
  if path = "/health" ∧ req.method = "GET" then (.ok200 "OK", [])
  else if path = "/mcp" ∧ (req.method = "POST" ∨ req.method = "GET") then
    let apiKey := (getApiKeyFromRequest req).getD ""
    let apiUrl := getApiUrlFromRequest req
    if apiKey = "" then
      (.unauthorized401 "Missing API key. Send X-Stackby-API-Key or Authorization: Bearer <key>.",
       [])
    else if req.method = "POST" then
      let (parsedBody, _) := readBody { content := req.body, consumed := false }
      match parsedBody with
      | none =>
        (.badRequest400 (if req.rawEmpty then "Parse error: Request body is empty"
          else "Parse error: Invalid JSON"), [.bodyRead])
      | some b => (.dispatched ⟨apiKey, apiUrl⟩ (some b), [.bodyRead, .dispatch])
    else (.dispatched ⟨apiKey, apiUrl⟩ none, [.dispatch])
  else (.notFound404, [])

/-- Spec-side reading of "carries a credential in either the designated
API-key header or a bearer-style authorization header": a non-blank
`x-stackby-api-key` value, or an `authorization` value of the form
`Bearer t` with non-blank `t`. -/
def carriesCredential (req : HttpReq) : Bool :=
  (match req.headers.lookup "x-stackby-api-key" with
   | some header => jsTrim header ≠ ""
   | none => false) ||
  (match req.headers.lookup "authorization" with
   | some auth => strStartsWith auth "Bearer " && jsTrim (strDrop auth 7) ≠ ""
   | none => false)

/-! ## Request-context propagation (`request-context.ts`)

`AsyncLocalStorage.run(context, fn)` binds the store to `context` for `fn`
and every asynchronous continuation it triggers (the node:async_hooks
contract); the store is carried with each chain, not kept in a shared
mutable variable.  A chain is abstracted by its bound store and the number
of `getRequestContext()` reads it still performs; concurrency is an
arbitrary interleaving of the per-request chains, driven by a schedule. -/

/-- One request's asynchronous call chain: the store bound at dispatch and
the remaining context reads of the chain. -/
structure AsyncChain where
  context : RequestContext
  pending : Nat
deriving Repr, DecidableEq

/-- `runWithRequestContext(context, fn)` (`request-context.ts`): run the
chain `fn` — abstracted by the number of context reads it performs — with
the store bound to `context`. -/
def runWithRequestContext (context : RequestContext) (pending : Nat) : AsyncChain :=
  { context := context, pending := pending }

/-- `getRequestContext()` evaluated from within a chain: returns the store
of the chain the caller is running on. -/
def getRequestContext (chain : AsyncChain) : RequestContext :=
  chain.context

/-- The in-flight chains of one process, keyed by request id. -/
def ProcState : Type := Nat → Option AsyncChain

/-- One logged `getRequestContext()` read: which request's code ran, and
which context it observed. -/
structure ContextObservation where
  requestId : Nat
  seen : RequestContext
deriving Repr, DecidableEq

/-- Interleaved execution of the in-flight chains: the schedule picks, step
by step, which request's chain performs its next `getRequestContext()`
read (picking a finished or unknown request is a no-op).  Returns the log
of observations. -/
def runSchedule (st : ProcState) : List Nat → List ContextObservation
  | [] => []
  | rid :: rest =>
    match st rid with
    | none => runSchedule st rest
    | some chain =>
      match chain.pending with
      | 0 => runSchedule st rest
      | Nat.succ p =>
        { requestId := rid, seen := getRequestContext chain } ::
          runSchedule (fun r => if r = rid then some { context := chain.context, pending := p } else st r) rest

/-- Whether a JSON value is an object carrying a (defined) `data` member —
exactly the values on which the wrapper shape `{data: X}` and the raw shape
`X` cannot be told apart by `normalizeResponse`. -/
def hasDataMember (j : Json) : Bool :=
  (j.lookupMember "data").isSome

/-! ## Theorems -/

/-- C2 (counterexample): the claim "for every JSON value X the normalizer
yields X whether the body is `{data: X}` or the raw value X directly" fails
at X = `{"data": 5}`: fed that raw value, the normalizer yields `5`, not X. -/
theorem normalizeResponse_rawDataObject_counterexample :
    normalizeResponse (Json.obj [("data", Json.num 5)]) = Json.num 5 ∧
      Json.num 5 ≠ Json.obj [("data", Json.num 5)] :=
  ⟨rfl, fun h => Json.noConfusion h⟩

/-- C2 (amended): the normalizer yields the payload X for a wrapper body
`{data: X}`, and for a raw body X it yields X provided X is not itself an
object with a `data` member (in which case that member is unwrapped
instead, as the counterexample shows). -/
theorem normalizeResponse_unwraps (X : Json) :
    normalizeResponse (Json.obj [("data", X)]) = X ∧
      (hasDataMember X = false → normalizeResponse X = X) := by
  constructor
  · simp [normalizeResponse, Json.lookupMember, List.lookup]
  · intro h
    unfold normalizeResponse
    cases hX : X.lookupMember "data" with
    | none => rfl
    | some v => simp [hasDataMember, hX] at h

/-- Witness for C2's amended theorem at X = `"x"`. -/
theorem normalizeResponse_unwraps_witness :
    normalizeResponse (Json.obj [("data", Json.str "x")]) = Json.str "x" ∧
      normalizeResponse (Json.str "x") = Json.str "x" :=
  ⟨(normalizeResponse_unwraps (Json.str "x")).1,
   (normalizeResponse_unwraps (Json.str "x")).2 rfl⟩

/-- C3: batches of size 0 or 11+ fail the `update_records`/`delete_records`
input schema (so the SDK rejects them before the handler, hence before any
network call), while batches of size 1–10 pass the schema and are
dispatched by `updateRows`/`deleteRows` as a network request. -/
theorem batchSizeValidation (records : List RecordUpdate) (recordIds : List String) :
    (records.length = 0 ∨ 11 ≤ records.length → updateRecordsSchemaOk records = false) ∧
    (1 ≤ records.length ∧ records.length ≤ 10 →
      updateRecordsSchemaOk records = true ∧
        ∃ body, updateRows records = .ok (some body)) ∧
    (recordIds.length = 0 ∨ 11 ≤ recordIds.length → deleteRecordsSchemaOk recordIds = false) ∧
    (1 ≤ recordIds.length ∧ recordIds.length ≤ 10 →
      deleteRecordsSchemaOk recordIds = true ∧
        deleteRows recordIds = .ok (some recordIds)) := by
  refine ⟨fun h => ?_, fun h => ⟨?_, ?_⟩, fun h => ?_, fun h => ⟨?_, ?_⟩⟩
  · simp only [updateRecordsSchemaOk, Bool.and_eq_false_iff, decide_eq_false_iff_not]
    omega
  · simp only [updateRecordsSchemaOk, Bool.and_eq_true, decide_eq_true_eq]
    omega
  · refine ⟨{ records := records.map fun r => (r.id, r.fields) }, ?_⟩
    unfold updateRows
    rw [if_neg (by omega), if_neg (by omega)]
  · simp only [deleteRecordsSchemaOk, Bool.and_eq_false_iff, decide_eq_false_iff_not]
    omega
  · simp only [deleteRecordsSchemaOk, Bool.and_eq_true, decide_eq_true_eq]
    omega
  · unfold deleteRows
    rw [if_neg (by omega), if_neg (by omega)]

/-- Witness for C3 at concrete batches: the empty batch and an 11-element
batch fail the schemas, singleton batches pass and are dispatched. -/
theorem batchSizeValidation_witness :
    updateRecordsSchemaOk ([] : List RecordUpdate) = false ∧
    deleteRecordsSchemaOk ["a", "b", "c", "d", "e", "f", "g", "h", "i", "j", "k"] = false ∧
    updateRecordsSchemaOk [{ id := "r1", fields := [] }] = true ∧
    deleteRecordsSchemaOk ["a"] = true ∧ deleteRows ["a"] = .ok (some ["a"]) :=
  ⟨(batchSizeValidation [] []).1 (Or.inl rfl),
   (batchSizeValidation []
      ["a", "b", "c", "d", "e", "f", "g", "h", "i", "j", "k"]).2.2.1 (Or.inr (by decide)),
   ((batchSizeValidation [{ id := "r1", fields := [] }] ["a"]).2.1 (by decide)).1,
   ((batchSizeValidation [] ["a"]).2.2.2 (by decide)).1,
   ((batchSizeValidation [] ["a"]).2.2.2 (by decide)).2⟩

/-- C5: the effective credential is the (trimmed, non-blank) per-call
context key when one is set; otherwise the trimmed process-wide key; and
when neither is available, `request` fails with the missing-key error
before the fetch is attempted (second component `false`). -/
theorem credentialPrecedence (ctx : Option RequestContext) (envApiKey : String)
    (remote : Except String Json) :
    (∀ c, ctx = some c → jsTrim c.apiKey ≠ "" →
      getEffectiveApiKey ctx envApiKey = jsTrim c.apiKey) ∧
    ((∀ c, ctx = some c → jsTrim c.apiKey = "") →
      getEffectiveApiKey ctx envApiKey = jsTrim envApiKey) ∧
    ((∀ c, ctx = some c → jsTrim c.apiKey = "") → jsTrim envApiKey = "" →
      request ctx envApiKey remote =
        (.error "STACKBY_API_KEY is not set. Set it in your MCP config (e.g. Cursor mcp.json env) or send header X-Stackby-API-Key (hosted).",
         false)) := by
  have hunset : (∀ c, ctx = some c → jsTrim c.apiKey = "") →
      getApiKeyFromContext ctx = none := by
    intro h
    cases ctx with
    | none => rfl
    | some c => simp [getApiKeyFromContext, h c rfl]
  refine ⟨fun c hc hne => ?_, fun h => ?_, fun h henv => ?_⟩
  · subst hc
    simp [getEffectiveApiKey, getApiKeyFromContext, hne]
  · simp [getEffectiveApiKey, hunset h]
  · have : getEffectiveApiKey ctx envApiKey = "" := by
      simp [getEffectiveApiKey, hunset h, henv]
    simp [request, authHeaders, this]

/-- Witness for C5: a context key wins over the process key; with no
context the process key is used; with neither, `request` errors with no
fetch. -/
theorem credentialPrecedence_witness :
    getEffectiveApiKey (some { apiKey := " ctx-key ", apiUrl := none }) "env-key" = "ctx-key" ∧
    getEffectiveApiKey none "env-key" = "env-key" ∧
    request none " " (.ok Json.null) =
      (.error "STACKBY_API_KEY is not set. Set it in your MCP config (e.g. Cursor mcp.json env) or send header X-Stackby-API-Key (hosted).",
       false) :=
  ⟨(credentialPrecedence (some { apiKey := " ctx-key ", apiUrl := none }) "env-key"
      (.ok Json.null)).1 _ rfl (by decide),
   (credentialPrecedence none "env-key" (.ok Json.null)).2.1 (fun c hc => by cases hc),
   (credentialPrecedence none " " (.ok Json.null)).2.2 (fun c hc => by cases hc) (by decide)⟩

/-- C10: both `getRowList` variants clamp the `maxrecord` parameter into
1..100 (below 1 becomes 1, above 100 becomes 100, absent becomes 100) and
clamp `offset` to at least 0 (kept as supplied when non-negative). -/
theorem rowListClamping (opts : GetRowListOptions) :
    (1 ≤ (getRowListQuery_mcp opts).maxrecord ∧ (getRowListQuery_mcp opts).maxrecord ≤ 100 ∧
     1 ≤ (getRowListQuery_dev opts).maxrecord ∧ (getRowListQuery_dev opts).maxrecord ≤ 100) ∧
    (∀ m, opts.maxRecords = some m → m < 1 →
      (getRowListQuery_mcp opts).maxrecord = 1 ∧ (getRowListQuery_dev opts).maxrecord = 1) ∧
    (∀ m, opts.maxRecords = some m → 100 < m →
      (getRowListQuery_mcp opts).maxrecord = 100 ∧ (getRowListQuery_dev opts).maxrecord = 100) ∧
    (opts.maxRecords = none → opts.pageSize = none →
      (getRowListQuery_mcp opts).maxrecord = 100 ∧ (getRowListQuery_dev opts).maxrecord = 100) ∧
    (0 ≤ (getRowListQuery_mcp opts).offset ∧ 0 ≤ (getRowListQuery_dev opts).offset ∧
     ∀ o, opts.offset = some o → 0 ≤ o → (getRowListQuery_mcp opts).offset = o) := by
  refine ⟨⟨?_, ?_, ?_, ?_⟩, fun m hm hlt => ⟨?_, ?_⟩, fun m hm hgt => ⟨?_, ?_⟩,
    fun hmr hps => ⟨?_, ?_⟩, ⟨?_, ?_, fun o ho hnn => ?_⟩⟩ <;>
    simp_all [getRowListQuery_mcp, getRowListQuery_dev, min_def, max_def] <;>
    split_ifs <;> omega

/-- Witness for C10 at concrete options: 0 becomes 1, 500 becomes 100,
absent becomes 100, a negative offset becomes 0 (as part of ≥ 0), a
non-negative offset is kept. -/
theorem rowListClamping_witness :
    (getRowListQuery_mcp { maxRecords := some 0, offset := some 7 }).maxrecord = 1 ∧
    (getRowListQuery_dev { maxRecords := some 500 }).maxrecord = 100 ∧
    (getRowListQuery_mcp {}).maxrecord = 100 ∧
    (getRowListQuery_mcp { maxRecords := some 0, offset := some 7 }).offset = 7 :=
  ⟨((rowListClamping { maxRecords := some 0, offset := some 7 }).2.1 0 rfl (by decide)).1,
   ((rowListClamping { maxRecords := some 500 }).2.2.1 500 rfl (by decide)).2,
   ((rowListClamping {}).2.2.2.1 rfl rfl).1,
   (rowListClamping { maxRecords := some 0, offset := some 7 }).2.2.2.2.2.2 7 rfl (by decide)⟩

/-- C6: on the tools requiring both identifiers (modelled here on the two
cited handlers, `describe_table` and `list_records`), an absent, empty or
whitespace-only stack or table id yields the precondition error response
with the error flag set, and no network call is attempted (the trim
happens first, so this holds whatever the credentials and remote would
do). -/
theorem requiredIdValidation (stackId tableId : Option String) (maxRecords : Option Int)
    (ctx : Option RequestContext) (envApiKey : String)
    (describeRemote : Except String DescribeTableResult)
    (rowsRemote : Except String (List TableRecord))
    (h : (stackId = none ∨ ∃ s, stackId = some s ∧ jsTrim s = "") ∨
         (tableId = none ∨ ∃ s, tableId = some s ∧ jsTrim s = "")) :
    describeTableTool stackId tableId ctx envApiKey describeRemote =
      ({ text := "stackId and tableId are required. Use list_stacks and list_tables to get IDs.",
         isError := true }, false) ∧
    listRecordsTool stackId tableId maxRecords ctx envApiKey rowsRemote =
      ({ text := "stackId and tableId are required. Use list_stacks and list_tables to get IDs.",
         isError := true }, none) := by
  have hids : (stackId.map jsTrim).getD "" = "" ∨ (tableId.map jsTrim).getD "" = "" := by
    rcases h with (h | ⟨s, hs, ht⟩) | (h | ⟨s, hs, ht⟩) <;> simp_all
  constructor
  · unfold describeTableTool
    rw [if_pos hids]
  · unfold listRecordsTool
    rw [if_pos hids]

/-- Witness for C6: a whitespace-only stack id with a well-formed table id
is rejected by both handlers with no call attempted. -/
theorem requiredIdValidation_witness :
    describeTableTool (some "   ") (some "tbl") (some { apiKey := "k", apiUrl := none }) ""
        (.ok { id := "t", name := "T", fields := [], views := [] }) =
      ({ text := "stackId and tableId are required. Use list_stacks and list_tables to get IDs.",
         isError := true }, false) ∧
    listRecordsTool (some "   ") (some "tbl") none (some { apiKey := "k", apiUrl := none }) ""
        (.ok []) =
      ({ text := "stackId and tableId are required. Use list_stacks and list_tables to get IDs.",
         isError := true }, none) :=
  requiredIdValidation (some "   ") (some "tbl") none
    (some { apiKey := "k", apiUrl := none }) ""
    (.ok { id := "t", name := "T", fields := [], views := [] }) (.ok [])
    (Or.inl (Or.inr ⟨"   ", rfl, by decide⟩))

/-- A fold that appends a per-element block is the concatenation of the
blocks (helper for the `getAllStacks` loop). -/
theorem foldl_append_blocks {α β : Type} (g : α → List β) (step : List β → α → List β)
    (hstep : ∀ all x, step all x = all ++ g x) :
    ∀ (l : List α) (init : List β), l.foldl step init = init ++ (l.map g).flatten := by
  intro l
  induction l with
  | nil => simp
  | cons x xs ih => intro init; simp [hstep, ih, List.append_assoc]

/-- C9: in both client variants, `getAllStacks` on a successful workspace
listing never fails as a whole: it returns, in workspace order, exactly
the stacks of the workspaces whose per-workspace fetch succeeded (tagged
with their workspace name), each failing workspace contributing nothing. -/
theorem getAllStacksSkipsFailures (workspaces : List Workspace)
    (stacksRemote_mcp : Workspace → Except String (List RawStack))
    (stacksRemote_dev : Workspace → Except String (List Stack × String)) :
    getAllStacks_mcp (.ok workspaces) stacksRemote_mcp =
      .ok ((workspaces.map fun ws =>
        match stacksRemote_mcp ws with
        | .ok raw =>
          ((getStacks_mcp raw (some ws.name)).1).map fun s =>
            { toStack := s, workspaceName := (getStacks_mcp raw (some ws.name)).2 }
        | .error _ => []).flatten) ∧
    getAllStacks_dev (.ok workspaces) stacksRemote_dev =
      .ok ((workspaces.map fun ws =>
        match stacksRemote_dev ws with
        | .ok (list, workspaceName) =>
          list.map fun s => { toStack := s, workspaceName := workspaceName }
        | .error _ => []).flatten) := by
  constructor
  · simp only [getAllStacks_mcp]
    rw [foldl_append_blocks _ _ ?hstep]
    · rfl
    case hstep =>
      intro all ws
      cases hws : stacksRemote_mcp ws with
      | ok raw => simp [hws]
      | error e => simp [hws]
  · simp only [getAllStacks_dev]
    rw [foldl_append_blocks _ _ ?hstep]
    · rfl
    case hstep =>
      intro all ws
      cases hws : stacksRemote_dev ws with
      | ok pair => cases pair; simp [hws]
      | error e => simp [hws]

/-- `Array.isArray(data) ? data[0] : data` — the first search result the
MCP-API client decodes out of the search response. -/
def SearchData.firstLoose : SearchData → Option RawSearchResult
  | .arrData results => results.head?
  | .single result => result

/-- C4 (counterexample): the claim says an empty column list makes the
search return empty "without issuing the search network call"; in the
MCP-API client's `searchRecords`, with no column specified and an empty
fetched column list, the search call is nevertheless issued (with the
column omitted from the body). -/
theorem searchRecords_emptyColumns_counterexample :
    (searchRecords_mcp "stk" "tbl" "term" none none (.ok []) (.ok (.single none))).2 =
      [.columnsCall "stk" "tbl", .searchCall "stk" "tbl" none "term" 100] ∧
    SearchCall.searchCall "stk" "tbl" none "term" 100 ∈
      (searchRecords_mcp "stk" "tbl" "term" none none (.ok []) (.ok (.single none))).2 := by
  refine ⟨rfl, ?_⟩
  rw [show (searchRecords_mcp "stk" "tbl" "term" none none
      (.ok []) (.ok (.single none))).2 =
    [.columnsCall "stk" "tbl", .searchCall "stk" "tbl" none "term" 100] from rfl]
  exact List.mem_cons_of_mem _ (List.mem_singleton.mpr rfl)

/-- C4 (amended): with no column specified, both `searchRecords` variants
resolve the column by fetching the column list and using the first
column's id in the search body.  When the fetched list is empty, the
devapi variant returns the empty result with no search call, while the
MCP-API variant still issues the search call with the column omitted,
returning the empty result (only) when the decoded response carries no
`rowIds`. -/
theorem searchColumnResolution (stackId tableId searchTerm : String)
    (optMaxRecords : Option Int) (searchRemote : Except String SearchData)
    (f : TableField) (rest : List TableField) (hf : f.id ≠ "") :
    ((searchRecords_mcp stackId tableId searchTerm none optMaxRecords
        (.ok (f :: rest)) searchRemote).2 =
      [.columnsCall stackId tableId,
       .searchCall stackId tableId (some f.id) searchTerm
         (min (max 1 (optMaxRecords.getD 100)) 99999)]) ∧
    ((searchRecords_dev stackId tableId searchTerm none optMaxRecords
        (.ok (f :: rest)) searchRemote).2 =
      [.columnsCall stackId tableId,
       .searchCall stackId tableId (some f.id) searchTerm
         (min (max 1 (optMaxRecords.getD 100)) 99999)]) ∧
    (searchRecords_dev stackId tableId searchTerm none optMaxRecords
        (.ok []) searchRemote =
      (.ok { rowIds := [], rowname := [], fields := [] },
       [.columnsCall stackId tableId])) ∧
    ((searchRecords_mcp stackId tableId searchTerm none optMaxRecords
        (.ok []) searchRemote).2 =
      [.columnsCall stackId tableId,
       .searchCall stackId tableId none searchTerm
         (min (max 1 (optMaxRecords.getD 100)) 99999)]) ∧
    (∀ data, searchRemote = .ok data →
      (data.firstLoose = none ∨ ∃ r, data.firstLoose = some r ∧ r.rowIds = none) →
      (searchRecords_mcp stackId tableId searchTerm none optMaxRecords
          (.ok []) searchRemote).1 =
        .ok { rowIds := [], rowname := [], fields := [] }) := by
  refine ⟨?_, ?_, ?_, ?_, ?_⟩
  · unfold searchRecords_mcp
    cases searchRemote with
    | error e => simp [hf]
    | ok data =>
      cases data with
      | arrData results =>
        cases results with
        | nil => simp [hf]
        | cons r rs => cases hr : r.rowIds <;> simp [hf, hr]
      | single r =>
        cases r with
        | none => simp [hf]
        | some rr => cases hr : rr.rowIds <;> simp [hf, hr]
  · unfold searchRecords_dev
    cases searchRemote with
    | error e => simp [hf]
    | ok data =>
      cases data with
      | arrData results =>
        cases results with
        | nil => simp [hf]
        | cons r rs => cases hr : r.rowIds <;> simp [hf, hr]
      | single r => simp [hf]
  · rfl
  · unfold searchRecords_mcp
    cases searchRemote with
    | error e => simp
    | ok data =>
      cases data with
      | arrData results =>
        cases results with
        | nil => simp
        | cons r rs => cases hr : r.rowIds <;> simp [hr]
      | single r =>
        cases r with
        | none => simp
        | some rr => cases hr : rr.rowIds <;> simp [hr]
  · intro data hdata hfirst
    subst hdata
    unfold searchRecords_mcp
    cases data with
    | arrData results =>
      cases results with
      | nil => simp
      | cons r rs =>
        rcases hfirst with h | ⟨r', hr', hrow⟩
        · simp [SearchData.firstLoose] at h
        · simp [SearchData.firstLoose] at hr'
          subst hr'
          simp [hrow]
    | single r =>
      cases r with
      | none => simp
      | some rr =>
        rcases hfirst with h | ⟨r', hr', hrow⟩
        · simp [SearchData.firstLoose] at h
        · simp [SearchData.firstLoose] at hr'
          subst hr'
          simp [hrow]

/-- Witness for C4's amended theorem at a concrete column list and
response. -/
theorem searchColumnResolution_witness :
    (searchRecords_mcp "stk" "tbl" "q" none none
        (.ok [{ id := "col1", name := "Name", fieldType := "shortText" }])
        (.ok (.single none))).2 =
      [.columnsCall "stk" "tbl", .searchCall "stk" "tbl" (some "col1") "q" 100] ∧
    searchRecords_dev "stk" "tbl" "q" none none (.ok []) (.ok (.single none)) =
      (.ok { rowIds := [], rowname := [], fields := [] }, [.columnsCall "stk" "tbl"]) := by
  have h := searchColumnResolution "stk" "tbl" "q" none (.ok (.single none))
    { id := "col1", name := "Name", fieldType := "shortText" } [] (by decide)
  exact ⟨h.1, h.2.2.1⟩

/-- C1: under every interleaving of the in-flight chains, each
`getRequestContext()` read performed on behalf of a request observes the
context bound to that request by `runWithRequestContext` — never another
request's context. -/
theorem contextIsolation (st : ProcState) (sched : List Nat)
    (o : ContextObservation) (ho : o ∈ runSchedule st sched)
    (chain : AsyncChain) (hchain : st o.requestId = some chain) :
    o.seen = chain.context := by
  induction sched generalizing st chain with
  | nil => simp [runSchedule] at ho
  | cons rid rest ih =>
    rw [runSchedule] at ho
    split at ho
    · exact ih st ho chain hchain
    · next chain0 heq =>
      split at ho
      · exact ih st ho chain hchain
      · next p hp =>
        rcases List.mem_cons.mp ho with hhead | htail
        · subst hhead
          simp only at hchain
          rw [heq] at hchain
          cases hchain
          rfl
        · by_cases hr : o.requestId = rid
          · have := ih (fun r => if r = rid then some { context := chain0.context, pending := p } else st r)
              htail { context := chain0.context, pending := p } (by simp [hr])
            rw [this]
            rw [hr] at hchain
            rw [heq] at hchain
            cases hchain
            rfl
          · exact ih (fun r => if r = rid then some { context := chain0.context, pending := p } else st r)
              htail chain (by simp [hr, hchain])

/-- The two concurrent demo requests of C1's witness: request 0 dispatched
with key `key-A`, request 1 with key `key-B`, each chain reading the
context twice. -/
def demoProcState : ProcState := fun rid =>
  if rid = 0 then some (runWithRequestContext { apiKey := "key-A", apiUrl := none } 2)
  else if rid = 1 then some (runWithRequestContext { apiKey := "key-B", apiUrl := none } 2)
  else none

/-- Witness for C1: in a fully interleaved schedule of the two demo
requests, an observation made on behalf of request 1 sees request 1's
context. -/
theorem contextIsolation_witness :
    ({ requestId := 1, seen := { apiKey := "key-B", apiUrl := none } } : ContextObservation).seen =
      (runWithRequestContext { apiKey := "key-B", apiUrl := none } 2).context :=
  contextIsolation demoProcState [0, 1, 0, 1]
    { requestId := 1, seen := { apiKey := "key-B", apiUrl := none } } (by decide)
    (runWithRequestContext { apiKey := "key-B", apiUrl := none } 2) (by decide)

/-- If a request carries no credential in either header (spec-side
reading), the extracted API key is missing or empty — the handler's
falsiness check fires. -/
theorem noCredential_noKey (req : HttpReq) (h : carriesCredential req = false) :
    (getApiKeyFromRequest req).getD "" = "" := by
  unfold carriesCredential at h
  unfold getApiKeyFromRequest
  rw [Bool.or_eq_false_iff] at h
  obtain ⟨hx, ha⟩ := h
  cases hxk : req.headers.lookup "x-stackby-api-key" with
  | none =>
    cases hau : req.headers.lookup "authorization" with
    | none => simp [hau]
    | some auth =>
      rw [hau] at ha
      simp only at ha
      by_cases hb : strStartsWith auth "Bearer "
      · simp [hb] at ha
        simp [hau, hb, ha]
      · simp [hau, hb]
  | some header =>
    rw [hxk] at hx
    simp at hx
    cases hau : req.headers.lookup "authorization" with
    | none => simp [hau, hx]
    | some auth =>
      rw [hau] at ha
      simp only at ha
      by_cases hb : strStartsWith auth "Bearer "
      · simp [hb] at ha
        simp [hau, hx, hb, ha]
      · simp [hau, hx, hb]

/-- A credential-less POST to `/mcp` with a well-formed JSON-RPC body
(C7's counterexample input). -/
def reqNoCredential : HttpReq :=
  { method := "POST", url := "/mcp",
    headers := [("content-type", "application/json")],
    body := some (Json.obj
      [("jsonrpc", Json.str "2.0"), ("method", Json.str "tools/list"), ("id", Json.num 1)]) }

/-- C7 (counterexample): the claim says the 401 is sent "before any tool
dispatch or body processing occurs"; in the debug-logging revision of the
HTTP handler, the request body is read (and parsed, for the
`console.log`) before the credential check, so a credential-less request
is answered 401 only after a body read. -/
theorem unauthorized401_afterBodyRead_counterexample :
    (handleRequest_v1 reqNoCredential).1 =
      .unauthorized401 "Missing API key. Send X-Stackby-API-Key or Authorization: Bearer <key>." ∧
    ServerAction.bodyRead ∈ (handleRequest_v1 reqNoCredential).2 := by
  refine ⟨rfl, ?_⟩
  rw [show (handleRequest_v1 reqNoCredential).2 = [ServerAction.bodyRead] from rfl]
  exact List.mem_singleton.mpr rfl

/-- C7 (amended): a credential-less `/mcp` request is answered 401 before
any tool dispatch in both revisions; in `src/server-http.ts` (v2) no body
read happens before the 401 either, while the debug-logging revision (v1)
reads the body for logging first (its action trace is exactly one body
read, no dispatch). -/
theorem unauthorizedBeforeDispatch (req : HttpReq)
    (hpath : normalizePath req.url = "/mcp")
    (hmethod : req.method = "POST" ∨ req.method = "GET")
    (hcred : carriesCredential req = false) :
    handleRequest_v2 req =
      (.unauthorized401 "Missing API key. Send X-Stackby-API-Key or Authorization: Bearer <key>.",
       []) ∧
    handleRequest_v1 req =
      (.unauthorized401 "Missing API key. Send X-Stackby-API-Key or Authorization: Bearer <key>.",
       [ServerAction.bodyRead]) := by
  have hkey := noCredential_noKey req hcred
  have hne : ¬ (normalizePath req.url = "/health" ∧ req.method = "GET") := by
    rintro ⟨h1, -⟩
    rw [hpath] at h1
    exact absurd h1 (by decide)
  constructor
  · simp only [handleRequest_v2]
    rw [if_neg hne, if_pos ⟨hpath, hmethod⟩, if_pos hkey]
  · simp only [handleRequest_v1, readBody]
    rw [if_neg hne, if_pos ⟨hpath, hmethod⟩, if_pos hkey]

/-- Witness for C7's amended theorem: a header-less GET to `/mcp`. -/
theorem unauthorizedBeforeDispatch_witness :
    handleRequest_v2 { method := "GET", url := "/mcp", headers := [], body := none } =
      (.unauthorized401 "Missing API key. Send X-Stackby-API-Key or Authorization: Bearer <key>.",
       []) ∧
    handleRequest_v1 { method := "GET", url := "/mcp", headers := [], body := none } =
      (.unauthorized401 "Missing API key. Send X-Stackby-API-Key or Authorization: Bearer <key>.",
       [ServerAction.bodyRead]) :=
  unauthorizedBeforeDispatch { method := "GET", url := "/mcp", headers := [], body := none }
    (by rfl) (Or.inr rfl) (by rfl)

/-- A single JSON-RPC notification (`notifications/initialized`): a
message with `jsonrpc` and `method` members and no reply id. -/
def notificationBody : Json :=
  Json.obj [("jsonrpc", Json.str "2.0"), ("method", Json.str "notifications/initialized")]

/-- An authenticated notification-only POST to `/mcp` (C8's failing
input). -/
def reqNotification : HttpReq :=
  { method := "POST", url := "/mcp",
    headers := [("x-stackby-api-key", "key-123")],
    body := some notificationBody }

/-- C8 (code bug): the body is a notification by the handler's own
predicate, yet the handler forwards the request to the transport instead
of answering 202 — the debug `console.log` read consumed the stream, so
the second `readBody` yields `undefined` and the 202 fast-path is dead
code: no request whatsoever is answered 202 by this handler. -/
theorem notificationOnly202_deadCode :
    (isNotificationOnly notificationBody = true ∧
     handleRequest_v1 reqNotification =
       (.dispatched { apiKey := "key-123", apiUrl := none } none,
        [.bodyRead, .bodyRead, .dispatch])) ∧
    ∀ req, (handleRequest_v1 req).1 ≠ .accepted202 := by
  refine ⟨⟨rfl, rfl⟩, fun req => ?_⟩
  simp only [handleRequest_v1, readBody, isNotificationOnlyOpt]
  split
  · simp
  · split
    · split
      · simp
      · split <;> simp
    · simp

end StackbyMCP
